import Mathlib

/-!
Verification of the query-to-market-data skill (router + akshare adapter).

The Python source is shallowly embedded:
* strings are Lean `String`s (lists of unicode characters); `str.lower()` is
  modelled on its ASCII action, which is all the adapter's inputs exercise;
* a normalized record (one row of `DataFrame.to_dict(orient="records")`) is an
  association list `Rec` from field names to string values — the adapter only
  ever applies `str()`, substring tests and numeric parsing to field values;
* a Python kwargs dict is identified with its printed form (the adapter never
  inspects kwargs, it only passes them through and formats them into errors);
* numbers produced by `_safe_float_local` are exact decimals `Dec10`
  (an integer numerator over a power of ten), so ordering facts are exact;
* upstream akshare calls are an opaque capability: a lookup from operation
  name to an optional fallible function, as in `getattr(self._ak, ...)`;
* Python's stable `list.sort` is modelled by a stable insertion sort; all
  stable sorts with the same comparison compute the same list.
-/

/-! ## Characters and strings (`str.lower`, `str.replace`, `in`) -/

/-- ASCII lowercasing of one character, the action of Python `str.lower()`
on the ASCII range (other codepoints pass through). -/
def lowerChar (c : Char) : Char :=
  if 65 ≤ c.toNat ∧ c.toNat ≤ 90 then Char.ofNat (c.toNat + 32) else c

/-- `str.lower()` on a character list. -/
def pyLowerL (s : List Char) : List Char := s.map lowerChar

/-- `str.lower()` on a string. -/
def pyLowerS (s : String) : String := String.mk (pyLowerL s.toList)

/-- `str.replace(ab, "")` for a two-character pattern `ab`: delete all
non-overlapping occurrences, scanning left to right. -/
def strip2 (a b : Char) : List Char → List Char
  | [] => []
  | [c] => [c]
  | c :: d :: rest =>
    if c = a ∧ d = b then strip2 a b rest else c :: strip2 a b (d :: rest)

/-- `_clean_symbol` on a character list:
`str(symbol).lower().replace("sz", "").replace("sh", "").replace("bj", "")`. -/
def cleanSym (s : List Char) : List Char :=
  strip2 'b' 'j' (strip2 's' 'h' (strip2 's' 'z' (pyLowerL s)))

/-- `_clean_symbol` (src/adapters/akshare_adapter.py:69-72).  A `None`
argument maps to `""`, which cleans to `""` as well, so the string version
covers the `Optional[str]` signature. -/
def clean_symbol (s : String) : String := String.mk (cleanSym s.toList)

/-- Does `s` start with `pat`? -/
def chStarts (pat : List Char) (s : List Char) : Bool :=
  match pat, s with
  | [], _ => true
  | _ :: _, [] => false
  | p :: ps, c :: cs => p = c && chStarts ps cs

/-- Does `s` contain `pat` as a contiguous run? -/
def chHas (pat : List Char) : List Char → Bool
  | [] => pat.isEmpty
  | c :: cs => chStarts pat (c :: cs) || chHas pat cs

/-- Python `needle in hay` on strings. -/
def pyIn (needle hay : String) : Bool := chHas needle.toList hay.toList

/-- Python `x or d` for an optional string `x` (both `None` and `""` are
falsy and fall through to the default). -/
def pyOrS (x : Option String) (d : String) : String :=
  match x with
  | some s => if s = "" then d else s
  | none => d

/-- Python `x or y` chaining on optional strings: the left operand wins
unless it is `None` or `""`. -/
def pyOrO (x y : Option String) : Option String :=
  match x with
  | some s => if s = "" then y else x
  | none => y

/-- Python `xs or ys` on lists: an empty left operand is falsy. -/
def pyOrList (xs ys : List α) : List α := if xs.isEmpty then ys else xs

/-- Python slice `l[:n]` for an `int` bound `n` (a negative bound counts
from the end of the list). -/
def pyTake (n : Int) (l : List α) : List α :=
  if 0 ≤ n then l.take n.toNat else l.take (l.length - (-n).toNat)

/-! ## Exact decimals and `_safe_float_local` -/

/-- An exact decimal `num / 10 ^ exp`; the value space of
`_safe_float_local` restricted to decimal literals. -/
structure Dec10 where
  num : Int
  exp : Nat
deriving DecidableEq, Repr

/-- Comparison of exact decimals by cross multiplication. -/
def dleq (a b : Dec10) : Bool := a.num * 10 ^ b.exp ≤ b.num * 10 ^ a.exp

/-- The rational value of an exact decimal. -/
def dval (a : Dec10) : ℚ := (a.num : ℚ) / 10 ^ a.exp

/-- Numeric value of a digit list (most significant first). -/
def natOfDigits (l : List Char) : Nat :=
  l.foldl (fun acc c => acc * 10 + (c.toNat - 48)) 0

/-- Parse an unsigned decimal literal: digits with an optional decimal
point (`"3"`, `"3."`, `".5"`, `"2.75"`).  Exotic `float()` forms
(exponents, `inf`, `nan`, underscores) are outside the adapter's data and
are not modelled. -/
def parseUnsigned (s : List Char) : Option Dec10 :=
  let ip := s.takeWhile Char.isDigit
  let rest := s.dropWhile Char.isDigit
  match rest with
  | [] => if ip.isEmpty then none else some ⟨natOfDigits ip, 0⟩
  | '.' :: fp =>
    if fp.all Char.isDigit && !(ip.isEmpty && fp.isEmpty) then
      some ⟨natOfDigits ip * 10 ^ fp.length + natOfDigits fp, fp.length⟩
    else none
  | _ => none

/-- Parse a signed decimal literal. -/
def parseSigned (s : List Char) : Option Dec10 :=
  match s with
  | '-' :: t => (parseUnsigned t).map (fun d => ⟨-d.num, d.exp⟩)
  | '+' :: t => parseUnsigned t
  | _ => parseUnsigned s

/-- Strip leading and trailing whitespace (`str.strip()`). -/
def trimWs (s : List Char) : List Char :=
  ((s.dropWhile Char.isWhitespace).reverse.dropWhile Char.isWhitespace).reverse

/-- `value.replace(",", "").replace("%", "")`: removing every occurrence of
a one-character pattern is a filter. -/
def stripCommaPct (s : List Char) : List Char :=
  s.filter (fun c => !(c = ',' || c = '%'))

/-- `_safe_float_local` (src/adapters/akshare_adapter.py:1115-1123) on an
optional string value: `None` yields `None`; a string is stripped of
commas, percent signs and surrounding whitespace and parsed as a decimal,
with a parse failure yielding `None`. -/
def safe_float_local (v : Option String) : Option Dec10 :=
  match v with
  | none => none
  | some s => parseSigned (trimWs (stripCommaPct s.toList))

/-! ## Records and the symbol filter -/

/-- One normalized row: an ordered association of field names to string
values (`row.get(k)` is the first binding of `k`). -/
abbrev Rec := List (String × String)

/-- `row.get(key)`. -/
def recGet (row : Rec) (key : String) : Option String :=
  match row.find? (fun p => p.1 = key) with
  | some p => some p.2
  | none => none

/-- The prioritized code-like field names of `_filter_records_by_symbol`. -/
def filterKeyPool : List String := ["代码", "股票代码", "证券代码", "symbol", "代码简称"]

/-- Does one row match the target symbol: some key of the pool is present
with the symbol as a substring of its value? -/
def rowMatchesSymbol (row : Rec) (symbol : String) : Bool :=
  filterKeyPool.any (fun key =>
    match recGet row key with
    | some v => pyIn symbol v
    | none => false)

/-- `_filter_records_by_symbol` (src/adapters/akshare_adapter.py:82-96):
keep the rows whose first matching pool key contains the symbol; an empty
symbol returns the records unchanged. -/
def filter_records_by_symbol (records : List Rec) (symbol : String) : List Rec :=
  if symbol = "" then records
  else records.filter (fun row => rowMatchesSymbol row symbol)

/-- The `or records` fallback used at the fund_bond / hk_us_market /
derivatives call sites (e.g. src/adapters/akshare_adapter.py:976):
`self._filter_records_by_symbol(records, s) or records`. -/
def filterWithFallback (records : List Rec) (symbol : String) : List Rec :=
  pyOrList (filter_records_by_symbol records symbol) records

/-- The margin_lhb post-processing of resolved margin records
(src/adapters/akshare_adapter.py:840-843): filter by symbol with no
fallback, then slice to `top_n`. -/
def marginItemsPost (records : List Rec) (cleanSymbol : String) (topN : Int) : List Rec :=
  pyTake topN (filter_records_by_symbol records cleanSymbol)

/-! ## Stable sort (Python `list.sort` / `sorted`) -/

/-- Stable insertion of `a` into `l`: `a` goes before the first element it
compares `le` to, hence before later-arriving equals. -/
def sInsert (le : α → α → Bool) (a : α) : List α → List α
  | [] => [a]
  | b :: l => if le a b then a :: b :: l else b :: sInsert le a l

/-- Stable sort.  Python's `list.sort`/`sorted` are stable, and every
stable sort with the same (total, transitive) comparison computes the same
list, so insertion sort is a faithful model. -/
def sSort (le : α → α → Bool) : List α → List α
  | [] => []
  | x :: xs => sInsert le x (sSort le xs)

/-! ## Candidate resolver (`_call_api_candidates`) -/

/-- A kwargs dict, identified with its Python printed form. -/
abbrev ArgSet := String

/-- The printed form of the empty kwargs dict used when a candidate has an
empty argument-set list (`kwargs_list or [{}]`). -/
def emptyArgs : ArgSet := "\x7b\x7d"

/-- The raw payload of a successful upstream call, treated opaquely. -/
abbrev Payload := String

/-- The external data capability: `getattr(self._ak, fn_name, None)`
yields either nothing or a function which, applied to a kwargs dict,
either raises (an error message) or returns a payload. -/
def Capability := String → Option (ArgSet → Except String Payload)

/-- The inner loop of `_call_api_candidates` over one operation's argument
sets.  Returns the first successful payload (if any), the formatted error
entries of the failed attempts, and the invocation log: one entry per
`func(**kwargs)` call, in call order. -/
def tryArgsPool (fnName : String) (f : ArgSet → Except String Payload) :
    List ArgSet → Option Payload × List String × List (String × ArgSet)
  | [] => (none, [], [])
  | kw :: rest =>
    match f kw with
    | .ok r => (some r, [], [(fnName, kw)])
    | .error e =>
      let (res, errs, log) := tryArgsPool fnName f rest
      (res, (fnName ++ "(" ++ kw ++ "): " ++ e) :: errs, (fnName, kw) :: log)

/-- The outer loop of `_call_api_candidates` over the candidate list:
skip operations absent from the capability, stop at the first success.
Components: resolved operation name, payload, error entries, invocation
log. -/
def runCandidates (cap : Capability) :
    List (String × List ArgSet) →
      Option String × Option Payload × List String × List (String × ArgSet)
  | [] => (none, none, [], [])
  | (fnName, kwargsList) :: rest =>
    match cap fnName with
    | none => runCandidates cap rest
    | some f =>
      let pool := if kwargsList.isEmpty then [emptyArgs] else kwargsList
      match tryArgsPool fnName f pool with
      | (some r, _, log) => (some fnName, some r, [], log)
      | (none, errs, log) =>
        let (a, p, errs2, log2) := runCandidates cap rest
        (a, p, errs ++ errs2, log ++ log2)

/-- `_call_api_candidates` (src/adapters/akshare_adapter.py:98-114):
`(fn_name, result, "")` on the first success, otherwise
`(None, None, "; ".join(errors))` with `"no callable api found"` when
nothing was attempted. -/
def call_api_candidates (cap : Capability) (candidates : List (String × List ArgSet)) :
    Option String × Option Payload × String :=
  let (fnName, payload, errs, _) := runCandidates cap candidates
  match payload with
  | some r => (fnName, some r, "")
  | none =>
    (none, none, if errs.isEmpty then "no callable api found" else String.intercalate "; " errs)

/-- The invocation log of a resolution: the `func(**kwargs)` calls issued,
in order. -/
def resolutionLog (cap : Capability) (candidates : List (String × List ArgSet)) :
    List (String × ArgSet) :=
  (runCandidates cap candidates).2.2.2

/-- The attempt sequence a candidate list denotes: the operation /
argument-set pairs whose operation exists on the capability, flattened in
list order (with the `[{}]` default pool for empty argument lists). -/
def flatAttempts (cap : Capability) : List (String × List ArgSet) → List (String × ArgSet)
  | [] => []
  | (fnName, kwargsList) :: rest =>
    match cap fnName with
    | none => flatAttempts cap rest
    | some _ =>
      (if kwargsList.isEmpty then [emptyArgs] else kwargsList).map (fun kw => (fnName, kw))
        ++ flatAttempts cap rest

/-- The outcome of invoking one attempt on the capability. -/
def attemptOutcome (cap : Capability) (a : String × ArgSet) : Except String Payload :=
  match cap a.1 with
  | some f => f a.2
  | none => Except.error "operation not defined"

/-- Is an outcome a failure? -/
def isErr : Except String Payload → Bool
  | .error _ => true
  | .ok _ => false

/-- The error message of an outcome (empty for a success). -/
def errMsgOf : Except String Payload → String
  | .error e => e
  | .ok _ => ""

/-- The error-trace entry `"{operation}({args}): {error}"` of one attempt. -/
def fmtAttempt (cap : Capability) (a : String × ArgSet) : String :=
  a.1 ++ "(" ++ a.2 ++ "): " ++ errMsgOf (attemptOutcome cap a)

/-! ## Record normalizer (`_to_records`) -/

/-- The payload shapes `_to_records` distinguishes: `None`; a tabular value
(has `head`/`to_dict`) whose projection succeeds with these rows; a tabular
value whose projection raises, carrying its `str()` form; and any other
value, passed through. -/
inductive RawData where
  | pnone
  | table (rows : List Rec)
  | badTable (text : String)
  | passthru (text : String)
deriving DecidableEq, Repr

/-- The result of `_to_records`: a record list, a string fallback, or the
non-tabular input itself. -/
inductive NormOut where
  | recs (rows : List Rec)
  | text (s : String)
  | passthru (s : String)
deriving DecidableEq, Repr

/-- `_to_records` (src/adapters/akshare_adapter.py:42-54); the `top_n`
parameter defaults to `10` in the source. -/
def to_records (data : RawData) (topN : Int := 10) : NormOut :=
  match data with
  | .pnone => .recs []
  | .table rows => if topN ≠ 0 ∧ topN > 0 then .recs (rows.take topN.toNat) else .recs rows
  | .badTable s => .text s
  | .passthru s => .passthru s

/-- The length of a normalized record list (0 for the fallback shapes). -/
def normLen : NormOut → Nat
  | .recs rows => rows.length
  | _ => 0

/-! ## `news` and `research_report` adapters -/

/-- An adapter result envelope: `_error(fn, msg)` or `_wrap(fn, items=...)`
(src/adapters/akshare_adapter.py:21-35). -/
inductive AdapterOut where
  | failure (api : String) (error : String)
  | success (api : String) (items : NormOut)
deriving DecidableEq, Repr

/-- The items of a successful adapter result with a record list. -/
def adapterItems : AdapterOut → List Rec
  | .success _ (.recs rows) => rows
  | _ => []

/-- `news` (src/adapters/akshare_adapter.py:266-277), parameterized by the
outcome of the one upstream call `self._ak.stock_news_em()` it issues. -/
def news (stockNewsEm : Except String RawData) (topN : Int) : AdapterOut :=
  match stockNewsEm with
  | .error e => .failure "stock_news_em" e
  | .ok df => .success "stock_news_em" (to_records df (max 1 (min topN 10)))

/-- `research_report` (src/adapters/akshare_adapter.py:279-295),
parameterized by the outcome of the upstream call
`self._ak.stock_research_report_em(symbol=clean_symbol)`. -/
def research_report (stockResearchReportEm : Except String RawData)
    (symbol : String) (topN : Int) : AdapterOut :=
  if clean_symbol symbol = "" then .failure "stock_research_report_em" "symbol is required"
  else
    match stockResearchReportEm with
    | .error e => .failure "stock_research_report_em" e
    | .ok df => .success "stock_research_report_em" (to_records df (max 1 (min topN 10)))

/-! ## `sector_analysis` ranking -/

/-- The percent-change field chain of `sector_analysis`
(src/adapters/akshare_adapter.py:908-913):
`row.get("涨跌幅") or row.get("今日涨跌幅") or row.get("涨跌幅%") or row.get("涨跌")`. -/
def pctChain (row : Rec) : Option String :=
  pyOrO (recGet row "涨跌幅")
    (pyOrO (recGet row "今日涨跌幅")
      (pyOrO (recGet row "涨跌幅%") (recGet row "涨跌")))

/-- The descending sort key `_safe_float_local(...) or -9999` of the
top-gainers sort: a missing, unparseable, or zero percent value (Python
`0.0` is falsy) falls back to the sentinel. -/
def gainKey (row : Rec) : Dec10 :=
  match safe_float_local (pctChain row) with
  | some d => if d.num = 0 then ⟨-9999, 0⟩ else d
  | none => ⟨-9999, 0⟩

/-- The ascending sort key `_safe_float_local(...) or 9999` of the
top-losers sort. -/
def dropKey (row : Rec) : Dec10 :=
  match safe_float_local (pctChain row) with
  | some d => if d.num = 0 then ⟨9999, 0⟩ else d
  | none => ⟨9999, 0⟩

/-- The ranking step of `sector_analysis`
(src/adapters/akshare_adapter.py:904-930), parameterized by the resolved
payload: normalize with no limit, keep dict rows, sort descending by the
gain key (stable, `reverse=True`), slice the gainers, then stable-sort the
already-sorted list ascending by the drop key and slice the losers. -/
def sectorRank (df : RawData) (topN : Int) : List Rec × List Rec :=
  match to_records df 0 with
  | .recs rows =>
    let sortedDesc := sSort (fun a b => dleq (gainKey b) (gainKey a)) rows
    let topGain := pyTake topN sortedDesc
    let topDrop := pyTake topN (sSort (fun a b => dleq (dropKey a) (dropKey b)) sortedDesc)
    (topGain, topDrop)
  | _ => ([], [])

/-! ## Intent classifier (src/router.py) -/

def INDEX_REALTIME : String := "INDEX_REALTIME"

def KLINE_ANALYSIS : String := "KLINE_ANALYSIS"

def INTRADAY_ANALYSIS : String := "INTRADAY_ANALYSIS"

def LIMIT_STATS : String := "LIMIT_STATS"

def MONEY_FLOW : String := "MONEY_FLOW"

def FUNDAMENTAL : String := "FUNDAMENTAL"

def STOCK_OVERVIEW : String := "STOCK_OVERVIEW"

def MARGIN_LHB : String := "MARGIN_LHB"

def SECTOR_ANALYSIS : String := "SECTOR_ANALYSIS"

def DERIVATIVES : String := "DERIVATIVES"

def FUND_BOND : String := "FUND_BOND"

def HK_US_MARKET : String := "HK_US_MARKET"

/-- `any(k in query for k in kws)`. -/
def containsAny (kws : List String) (t : String) : Bool := kws.any (fun k => pyIn k t)

/-- The keyword set of the limit-up/down rule. -/
def limitKws : List String := ["涨停", "跌停", "涨跌停"]

/-- `_classify_intent` (src/router.py:122-152): ordered keyword rules over
the raw query and its lowercased form, first match wins, defaulting to
`INDEX_REALTIME`. -/
def classify_intent (query : String) : String :=
  let q := pyLowerS query
  if containsAny limitKws query then LIMIT_STATS
  else if containsAny ["分时", "盘口", "逐笔"] query then INTRADAY_ANALYSIS
  else if containsAny ["k线", "K线", "日线", "周线", "月线"] query || pyIn "kline" q then
    KLINE_ANALYSIS
  else if containsAny ["怎么样", "分析", "看下", "评估", "综合"] query then STOCK_OVERVIEW
  else if containsAny ["资金流", "主力资金", "北向资金", "南向资金", "东向资金", "行业资金", "板块资金"] query then
    MONEY_FLOW
  else if containsAny
      ["基本面", "财报", "财务", "市盈率", "市净率", "估值", "roe", "ROE", "毛利率", "净利率", "资产负债率"] query then
    FUNDAMENTAL
  else if containsAny ["融资融券", "龙虎榜", "两融", "融资余额", "融券余额"] query then MARGIN_LHB
  else if containsAny ["港股", "美股", "纳斯达克", "道琼斯", "标普", "恒生", "恒指"] query
      || containsAny ["nasdaq", "dow", "sp500", "s&p", "hang seng", "hk", "us"] q then
    HK_US_MARKET
  else if containsAny ["期货", "期权", "衍生品", "主力合约", "if", "ih", "ic", "im"] query then DERIVATIVES
  else if containsAny ["基金", "净值", "可转债", "转债", "债券", "etf", "ETF"] query then FUND_BOND
  else if containsAny ["板块", "行业", "概念", "题材", "轮动", "涨幅榜", "跌幅榜"] query then SECTOR_ANALYSIS
  else if containsAny ["大盘", "指数", "上证", "深证", "创业板", "实时"] query then INDEX_REALTIME
  else INDEX_REALTIME

/-- Does the query match any keyword rule of `_classify_intent` (including
the final explicit index rule)? -/
def matchesAnyRule (query : String) : Bool :=
  let q := pyLowerS query
  containsAny limitKws query
    || containsAny ["分时", "盘口", "逐笔"] query
    || containsAny ["k线", "K线", "日线", "周线", "月线"] query || pyIn "kline" q
    || containsAny ["怎么样", "分析", "看下", "评估", "综合"] query
    || containsAny ["资金流", "主力资金", "北向资金", "南向资金", "东向资金", "行业资金", "板块资金"] query
    || containsAny
      ["基本面", "财报", "财务", "市盈率", "市净率", "估值", "roe", "ROE", "毛利率", "净利率", "资产负债率"] query
    || containsAny ["融资融券", "龙虎榜", "两融", "融资余额", "融券余额"] query
    || containsAny ["港股", "美股", "纳斯达克", "道琼斯", "标普", "恒生", "恒指"] query
    || containsAny ["nasdaq", "dow", "sp500", "s&p", "hang seng", "hk", "us"] q
    || containsAny ["期货", "期权", "衍生品", "主力合约", "if", "ih", "ic", "im"] query
    || containsAny ["基金", "净值", "可转债", "转债", "债券", "etf", "ETF"] query
    || containsAny ["板块", "行业", "概念", "题材", "轮动", "涨幅榜", "跌幅榜"] query
    || containsAny ["大盘", "指数", "上证", "深证", "创业板", "实时"] query

/-! ## Overview aggregator (`stock_overview`) -/

/-- The `data` map of a sub-adapter result, restricted to the fields
`stock_overview` reads: `items`, `latest`, `date`, `up_items`,
`down_items` (absent fields default as the `.get` defaults do). -/
structure OpData where
  items : List Rec
  latest : Option Rec
  date : Option String
  upItems : List Rec
  downItems : List Rec
deriving DecidableEq, Repr

/-- The empty `data` map. -/
def emptyOpData : OpData := ⟨[], none, none, [], []⟩

/-- A sub-adapter result envelope as `stock_overview` reads it:
`ok`, `api`, `error`, `data`. -/
structure OpResult where
  ok : Bool
  api : Option String
  error : Option String
  data : OpData
deriving DecidableEq, Repr

/-- One section of the overview payload; fields absent from a given
section's dict are `none`. -/
structure OvSection where
  ok : Bool
  api : Option String
  error : Option String
  latest : Option Rec
  items : Option (List Rec)
  days : Option Nat
  date : Option String
  upCount : Option Nat
  downCount : Option Nat
deriving DecidableEq, Repr

/-- The sub-adapter calls `stock_overview` issues, as an environment of
their results: the adapters themselves always return an envelope and never
raise (each one catches its own exceptions), so each call is one value.
`limitPool offset` is the result of
`self.limit_pool(date=trade_date, top_n=300)` for the day `offset` days
back, and `dateOf offset` that day's `YYYYMMDD` string. -/
structure OverviewEnv where
  stockIntraday : OpResult
  moneyFlow : OpResult
  fundamentalRes : OpResult
  limitPool : Nat → OpResult
  researchReport : OpResult
  dateOf : Nat → String

/-- The code-like keys the limit-stats scan matches
(src/adapters/akshare_adapter.py:514). -/
def overviewCodeKeys : List String := ["代码", "股票代码", "证券代码", "symbol"]

/-- The name-like keys the limit-stats scan matches
(src/adapters/akshare_adapter.py:515). -/
def overviewNameKeys : List String := ["名称", "股票简称", "证券简称", "简称"]

/-- `_is_target` (src/adapters/akshare_adapter.py:531-542): the row's code
cleans to the clean symbol, or the row's name occurs in the raw symbol. -/
def isTargetRow (cleanSym0 rawSymbol : String) (row : Rec) : Bool :=
  overviewCodeKeys.any (fun key =>
    match recGet row key with
    | some v => cleanSym0 = clean_symbol v
    | none => false)
  || overviewNameKeys.any (fun key =>
    match recGet row key with
    | some v => pyIn v rawSymbol
    | none => false)

/-- One iteration of the 10-day limit-stats scan
(src/adapters/akshare_adapter.py:517-547), folding an accumulator
`(up_count, down_count, last_date, errors)` over the day offset. -/
def limitScanStep (env : OverviewEnv) (cleanSym0 rawSymbol : String)
    (acc : Nat × Nat × Option String × List String) (offset : Nat) :
    Nat × Nat × Option String × List String :=
  let (up, down, lastDate, errs) := acc
  let tradeDate := env.dateOf offset
  let res := env.limitPool offset
  if res.ok then
    let upItems := pyOrList res.data.upItems res.data.items
    let downItems := res.data.downItems
    let lastDate' := if lastDate = none then some (pyOrS res.data.date tradeDate) else lastDate
    (up + upItems.countP (fun row => isTargetRow cleanSym0 rawSymbol row),
      down + downItems.countP (fun row => isTargetRow cleanSym0 rawSymbol row),
      lastDate', errs)
  else
    (up, down, lastDate, errs ++ [tradeDate ++ ": " ++ (res.error.getD "unknown error")])

/-- The whole 10-day scan. -/
def limitScan (env : OverviewEnv) (cleanSym0 rawSymbol : String) :
    Nat × Nat × Option String × List String :=
  (List.range 10).foldl (limitScanStep env cleanSym0 rawSymbol) (0, 0, none, [])

/-- The result of `stock_overview`: the failure envelope, or the success
envelope carrying the five sections. -/
inductive OverviewOut where
  | failure (error : String)
  | success (symbol : String) (realtime moneyFlow fundamentalSec limitStats researchRep : OvSection)
deriving DecidableEq, Repr

/-- `stock_overview` (src/adapters/akshare_adapter.py:432-594).  The five
sections are computed one after the other, each from its own sub-call
result; the `limit_stats` section is assigned with `ok: True`
unconditionally, its error field joining the first three per-day failures;
the aggregate fails only if no section is ok. -/
def stock_overview (env : OverviewEnv) (symbol : String) : OverviewOut :=
  let cleanSym0 := clean_symbol symbol
  if cleanSym0 = "" then .failure "symbol is required"
  else
    let rt := env.stockIntraday
    let realtime : OvSection :=
      if rt.ok then
        ⟨true, rt.api, none, some (rt.data.items.headD []), none, none, none, none, none⟩
      else
        ⟨false, rt.api, some (rt.error.getD "unknown error"), none, none, none, none, none, none⟩
    let flow := env.moneyFlow
    let moneyFlowSec : OvSection :=
      if flow.ok then
        ⟨true, flow.api, none, some (flow.data.items.headD []), some flow.data.items,
          none, none, none, none⟩
      else
        ⟨false, flow.api, some (flow.error.getD "unknown error"), none, none, none, none, none, none⟩
    let fund := env.fundamentalRes
    let fundamentalSec : OvSection :=
      if fund.ok then
        ⟨true, fund.api, none, some ((fund.data.latest).getD []), some fund.data.items,
          none, none, none, none⟩
      else
        ⟨false, fund.api, some (fund.error.getD "unknown error"), none, none, none, none, none, none⟩
    let (upCount, downCount, lastDate, limitErrors) := limitScan env cleanSym0 symbol
    let limitStats : OvSection :=
      ⟨true, none,
        if limitErrors.isEmpty then none else some (String.intercalate "; " (limitErrors.take 3)),
        none, none, some 10, lastDate, some upCount, some downCount⟩
    let rep := env.researchReport
    let researchRep : OvSection :=
      if rep.ok then
        ⟨true, rep.api, none, none, some (rep.data.items.take 3), none, none, none, none⟩
      else
        ⟨false, rep.api, some (rep.error.getD "unknown error"), none, none, none, none, none, none⟩
    let sections := [realtime, moneyFlowSec, fundamentalSec, limitStats, researchRep]
    if sections.any (fun s => s.ok) then
      .success cleanSym0 realtime moneyFlowSec fundamentalSec limitStats researchRep
    else
      let combined := String.intercalate "; "
        ((sections.filterMap (fun s => s.error)).filter (fun e => e ≠ ""))
      .failure (if combined = "" then "all sub-apis failed" else combined)

/-- Did the overview succeed overall (`ok: true`)? -/
def overviewOk : OverviewOut → Bool
  | .success _ _ _ _ _ _ => true
  | .failure _ => false

/-- The five sections of a successful overview, in the dict's insertion
order. -/
def overviewSections : OverviewOut → List OvSection
  | .success _ a b c d e => [a, b, c, d, e]
  | .failure _ => []

/-- The realtime section of a successful overview. -/
def realtimeOf : OverviewOut → Option OvSection
  | .success _ a _ _ _ _ => some a
  | .failure _ => none

/-- The money-flow section of a successful overview. -/
def moneyFlowOf : OverviewOut → Option OvSection
  | .success _ _ b _ _ _ => some b
  | .failure _ => none

/-- The fundamentals section of a successful overview. -/
def fundamentalOf : OverviewOut → Option OvSection
  | .success _ _ _ c _ _ => some c
  | .failure _ => none

/-- The limit-stats section of a successful overview. -/
def limitStatsOf : OverviewOut → Option OvSection
  | .success _ _ _ _ d _ => some d
  | .failure _ => none

/-- The research-report section of a successful overview. -/
def researchRepOf : OverviewOut → Option OvSection
  | .success _ _ _ _ _ e => some e
  | .failure _ => none

/-! ## Concrete fixtures used by witnesses and counterexamples -/

/-- Does a character list contain the two-character run `a, b`? -/
def hasPair (a b : Char) : List Char → Bool
  | [] => false
  | [_] => false
  | c :: d :: rest => if c = a ∧ d = b then true else hasPair a b (d :: rest)

/-- A capability with one operation `"f"` that fails on kwargs `"a"` and
succeeds on kwargs `"b"`. -/
def capFix : Capability := fun fnName =>
  if fnName = "f" then some (fun kw => if kw = "a" then .error "boom" else .ok "R")
  else none

/-- A capability with one operation `"f"` that always fails. -/
def capBadFix : Capability := fun fnName =>
  if fnName = "f" then some (fun kw => .error ("E" ++ kw)) else none

/-- A successful sub-adapter result fixture. -/
def okResFix : OpResult :=
  ⟨true, some "apiX", none, ⟨[[("a", "1")]], some [("l", "2")], some "20251010", [], []⟩⟩

/-- A failing sub-adapter result fixture. -/
def badResFix : OpResult := ⟨false, some "apiY", some "boom", emptyOpData⟩

/-- An overview environment in which the money-flow sub-call fails and the
other sub-calls succeed. -/
def envMixFix : OverviewEnv :=
  ⟨okResFix, badResFix, okResFix,
    fun offset =>
      if offset = 0 then
        ⟨true, none, none,
          ⟨[[("代码", "600519")]], none, some "20251011", [[("代码", "600519")]], []⟩⟩
      else badResFix,
    okResFix, fun offset => "D" ++ toString offset⟩

/-- An overview environment in which every sub-call fails. -/
def envAllBadFix : OverviewEnv :=
  ⟨badResFix, badResFix, badResFix, fun _ => badResFix, badResFix,
    fun offset => "D" ++ toString offset⟩

/-- A sector row with percent change `-1`. -/
def rowNegFix : Rec := [("涨跌幅", "-1")]

/-- A sector row with percent change `0`. -/
def rowZeroFix : Rec := [("涨跌幅", "0")]

/-! # Helper lemmas -/

theorem toNat_ofNat_valid (n : Nat) (h : n.isValidChar) : (Char.ofNat n).toNat = n := by
  unfold Char.ofNat
  rw [dif_pos h]
  rfl

theorem lowerChar_idem (c : Char) : lowerChar (lowerChar c) = lowerChar c := by
  unfold lowerChar
  by_cases h : 65 ≤ c.toNat ∧ c.toNat ≤ 90
  · rw [if_pos h]
    have hv : (c.toNat + 32).isValidChar := Or.inl (by omega)
    rw [if_neg]
    rw [toNat_ofNat_valid _ hv]
    omega
  · rw [if_neg h, if_neg h]

theorem pyLowerL_fixed (l : List Char) (h : ∀ c ∈ l, lowerChar c = c) : pyLowerL l = l := by
  unfold pyLowerL
  induction l with
  | nil => rfl
  | cons c t ih =>
    simp only [List.map_cons, List.cons.injEq]
    exact ⟨h c (by simp), ih (fun x hx => h x (by simp [hx]))⟩

theorem mem_pyLowerL_fixed (l : List Char) (c : Char) (h : c ∈ pyLowerL l) :
    lowerChar c = c := by
  unfold pyLowerL at h
  obtain ⟨x, _, rfl⟩ := List.mem_map.mp h
  exact lowerChar_idem x

theorem strip2_sublist (a b : Char) : (l : List Char) → (strip2 a b l).Sublist l
  | [] => by simp [strip2]
  | [c] => by simp [strip2]
  | c :: d :: rest => by
    unfold strip2
    split
    · exact ((strip2_sublist a b rest).cons d).cons c
    · exact List.Sublist.cons₂ c (strip2_sublist a b (d :: rest))

theorem strip2_of_no_pair (a b : Char) :
    (l : List Char) → hasPair a b l = false → strip2 a b l = l
  | [], _ => rfl
  | [c], _ => rfl
  | c :: d :: rest, h => by
    unfold hasPair at h
    have hcond : ¬ (c = a ∧ d = b) := by
      intro hc
      rw [if_pos hc] at h
      exact Bool.true_eq_false.mp h
    rw [if_neg hcond] at h
    unfold strip2
    rw [if_neg hcond, strip2_of_no_pair a b (d :: rest) h]

theorem cleanSym_chars_lower (s : List Char) (c : Char) (h : c ∈ cleanSym s) :
    lowerChar c = c := by
  unfold cleanSym at h
  have h1 : c ∈ pyLowerL s :=
    ((strip2_sublist 'b' 'j' _).trans
      ((strip2_sublist 's' 'h' _).trans (strip2_sublist 's' 'z' _))).mem h
  exact mem_pyLowerL_fixed s c h1

/-! # Claim C5: idempotence of symbol cleaning -/

/-- Claim C5 counterexample: symbol cleaning is not idempotent.  On
`"sszz"` one pass deletes the middle `"sz"` and glues the outer `s` and
`z` into a fresh `"sz"`, which a second pass deletes:
`_clean_symbol("sszz") = "sz"` but `_clean_symbol("sz") = ""`. -/
theorem clean_symbol_not_idempotent :
    clean_symbol "sszz" = "sz" ∧
    clean_symbol (clean_symbol "sszz") = "" ∧
    clean_symbol (clean_symbol "sszz") ≠ clean_symbol "sszz" := by
  refine ⟨by decide, by decide, by decide⟩

/-- Claim C5 (amended): symbol cleaning is idempotent on every input whose
cleaned form contains no further market-prefix pair `"sz"`, `"sh"` or
`"bj"` — in particular on every real ticker (digits, optionally preceded
by one market prefix).  Deleting a pair can glue a new pair together, so
the unrestricted claim fails (see the counterexample). -/
theorem clean_symbol_idempotent_on_clean (s : String)
    (h1 : hasPair 's' 'z' (cleanSym s.toList) = false)
    (h2 : hasPair 's' 'h' (cleanSym s.toList) = false)
    (h3 : hasPair 'b' 'j' (cleanSym s.toList) = false) :
    clean_symbol (clean_symbol s) = clean_symbol s := by
  unfold clean_symbol
  have htl : (String.mk (cleanSym s.toList)).toList = cleanSym s.toList := rfl
  rw [htl]
  have hlow : pyLowerL (cleanSym s.toList) = cleanSym s.toList :=
    pyLowerL_fixed _ (fun c hc => cleanSym_chars_lower s.toList c hc)
  have : cleanSym (cleanSym s.toList) = cleanSym s.toList := by
    show strip2 'b' 'j' (strip2 's' 'h' (strip2 's' 'z' (pyLowerL (cleanSym s.toList))))
      = cleanSym s.toList
    rw [hlow, strip2_of_no_pair 's' 'z' _ h1, strip2_of_no_pair 's' 'h' _ h2,
      strip2_of_no_pair 'b' 'j' _ h3]
  rw [this]

/-- Witness for the amended C5 at the ticker `"sh600519"`. -/
theorem clean_symbol_idempotent_witness :
    clean_symbol (clean_symbol "sh600519") = clean_symbol "sh600519" :=
  clean_symbol_idempotent_on_clean "sh600519" (by decide) (by decide) (by decide)

/-! # Claim C7: record limiting in the normalizer -/

/-- Claim C7 counterexample: with the limit ABSENT, `_to_records` does not
project the full set — its `top_n` parameter defaults to `10`, so an
11-row table is clipped to 10 rows. -/
theorem to_records_absent_limit_clips :
    normLen (to_records (.table (List.replicate 11 ([] : Rec)))) = 10 ∧
    (List.replicate 11 ([] : Rec)).length = 11 := by
  refine ⟨by decide, by decide⟩

/-- Claim C7 (amended): for a tabular payload the record sequence has
length at most `n` whenever `n > 0`; a limit of zero — or any
non-positive limit — projects the full unclipped set; a `None` payload
yields the empty sequence.  An ABSENT limit, however, defaults to `10`
(the unrestricted "absent projects the full set" reading fails, see the
counterexample). -/
theorem to_records_limit_bounds (rows : List Rec) (n : Int) :
    (0 < n → normLen (to_records (.table rows) n) ≤ n.toNat) ∧
    (n ≤ 0 → to_records (.table rows) n = .recs rows) ∧
    to_records RawData.pnone n = .recs [] := by
  refine ⟨?_, ?_, rfl⟩
  · intro hn
    have hred : to_records (.table rows) n = .recs (rows.take n.toNat) := by
      show (if n ≠ 0 ∧ n > 0 then NormOut.recs (rows.take n.toNat) else NormOut.recs rows)
        = NormOut.recs (rows.take n.toNat)
      rw [if_pos]
      exact ⟨by omega, hn⟩
    rw [hred]
    unfold normLen
    simp [Nat.min_le_left n.toNat rows.length]
  · intro hn
    show (if n ≠ 0 ∧ n > 0 then NormOut.recs (rows.take n.toNat) else NormOut.recs rows)
      = NormOut.recs rows
    rw [if_neg]
    intro hc
    omega

/-- Witness for the amended C7 at a three-row table with limits `2` and
`-1`. -/
theorem to_records_limit_bounds_witness :
    normLen (to_records (.table (List.replicate 3 ([] : Rec))) 2) ≤ 2 ∧
    to_records (.table (List.replicate 3 ([] : Rec))) (-1) = .recs (List.replicate 3 []) :=
  ⟨(to_records_limit_bounds (List.replicate 3 []) 2).1 (by decide),
    (to_records_limit_bounds (List.replicate 3 []) (-1)).2.1 (by decide)⟩

/-! # Claim C10: the news / research-report record clamp -/

/-- Claim C10 counterexample: a `top_n` of `0` does not yield "exactly one
record" — the clamp sets the limit to `1`, but on an empty feed the
result has zero records. -/
theorem news_clamp_empty_feed :
    adapterItems (news (.ok (.table [])) 0) = [] ∧
    (adapterItems (news (.ok (.table [])) 0)).length ≠ 1 := by
  refine ⟨by decide, by decide⟩

/-- Claim C10 (amended): `news` and `research_report` clamp the record
limit to the range 1..10 via `max(1, min(top_n, 10))`: on a tabular feed
they return at most 10 item records, and a `top_n` of 0 or less clamps
the limit to exactly 1, so they yield `min 1 |rows|` records — one record
when the feed is non-empty, rather than the full set. -/
theorem news_research_clamp (rows rows2 : List Rec) (n : Int) (symbol : String)
    (hsym : clean_symbol symbol ≠ "") :
    (adapterItems (news (.ok (.table rows)) n)).length ≤ 10 ∧
    (n ≤ 0 → (adapterItems (news (.ok (.table rows)) n)).length = min 1 rows.length) ∧
    (adapterItems (research_report (.ok (.table rows2)) symbol n)).length ≤ 10 ∧
    (n ≤ 0 →
      (adapterItems (research_report (.ok (.table rows2)) symbol n)).length
        = min 1 rows2.length) := by
  have hclamp : ∀ (rs : List Rec) (api : String),
      (adapterItems (.success api (to_records (.table rs) (max 1 (min n 10))))).length ≤ 10 ∧
      (n ≤ 0 →
        (adapterItems (.success api (to_records (.table rs) (max 1 (min n 10))))).length
          = min 1 rs.length) := by
    intro rs api
    have hred : ∀ m : Int, 0 < m → to_records (.table rs) m = .recs (rs.take m.toNat) := by
      intro m hm
      show (if m ≠ 0 ∧ m > 0 then NormOut.recs (rs.take m.toNat) else NormOut.recs rs)
        = NormOut.recs (rs.take m.toNat)
      rw [if_pos]
      exact ⟨by omega, hm⟩
    constructor
    · rw [hred _ (by omega)]
      unfold adapterItems
      simp only [List.length_take]
      omega
    · intro hn
      have hone : max 1 (min n 10) = 1 := by omega
      rw [hone, hred 1 (by omega)]
      unfold adapterItems
      simp only [List.length_take]
      omega
  constructor
  · exact (hclamp rows "stock_news_em").1
  constructor
  · exact (hclamp rows "stock_news_em").2
  constructor
  · unfold research_report
    rw [if_neg hsym]
    exact (hclamp rows2 "stock_research_report_em").1
  · unfold research_report
    rw [if_neg hsym]
    exact (hclamp rows2 "stock_research_report_em").2

/-- Witness for the amended C10: a two-row feed with `top_n = 0` yields
exactly one record in both adapters. -/
theorem news_research_clamp_witness :
    (adapterItems (news (.ok (.table [[("t", "x")], [("t", "y")]])) 0)).length
      = min 1 ([[("t", "x")], [("t", "y")]] : List Rec).length ∧
    (adapterItems
        (research_report (.ok (.table [[("t", "x")], [("t", "y")]])) "600519" 0)).length
      = min 1 ([[("t", "x")], [("t", "y")]] : List Rec).length :=
  ⟨(news_research_clamp [[("t", "x")], [("t", "y")]] [[("t", "x")], [("t", "y")]] 0 "600519"
      (by decide)).2.1 (by decide),
    (news_research_clamp [[("t", "x")], [("t", "y")]] [[("t", "x")], [("t", "y")]] 0 "600519"
      (by decide)).2.2.2 (by decide)⟩

/-! # Claim C8: intent classification is total and priority-ordered -/

/-- Claim C8: `_classify_intent` is a total function (it returns a tag for
every input by construction); a text containing a limit-up/down keyword —
even together with a general analysis keyword such as `"分析"` — classifies
as `LIMIT_STATS`, because that rule is checked first; and a text matching
no keyword rule falls through to the default `INDEX_REALTIME`. -/
theorem classify_intent_priority_and_default (t : String) :
    (containsAny limitKws t = true ∧ pyIn "分析" t = true →
      classify_intent t = LIMIT_STATS) ∧
    (containsAny limitKws t = true → classify_intent t = LIMIT_STATS) ∧
    (matchesAnyRule t = false → classify_intent t = INDEX_REALTIME) := by
  have hfirst : containsAny limitKws t = true → classify_intent t = LIMIT_STATS := by
    intro h
    unfold classify_intent
    rw [if_pos h]
  refine ⟨fun h => hfirst h.1, hfirst, ?_⟩
  intro h
  unfold matchesAnyRule at h
  simp only [Bool.or_eq_false_iff] at h
  simp_all [classify_intent]

/-- Witness for C8: `"涨停分析"` (a limit keyword plus the analysis
keyword) classifies as `LIMIT_STATS`, and the keyword-free `"你好"`
classifies as the default `INDEX_REALTIME`. -/
theorem classify_intent_witness :
    classify_intent "涨停分析" = LIMIT_STATS ∧ classify_intent "你好" = INDEX_REALTIME :=
  ⟨(classify_intent_priority_and_default "涨停分析").1 ⟨by decide, by decide⟩,
    (classify_intent_priority_and_default "你好").2.2 (by decide)⟩

/-! # Claim C4: zero-match symbol filtering -/

/-- Claim C4 counterexample: when no record matches, the filter itself
returns the EMPTY list, not the original set, and the `margin_lhb` caller
(which applies the filter without an `or records` fallback,
src/adapters/akshare_adapter.py:842) ends up with an empty item list
instead of the original records. -/
theorem filter_no_match_not_noop :
    filter_records_by_symbol [[("foo", "bar")]] "600519" = [] ∧
    marginItemsPost [[("foo", "bar")]] "600519" 10 = [] ∧
    ([[("foo", "bar")]] : List Rec) ≠ [] := by
  refine ⟨by decide, by decide, by decide⟩

/-- Claim C4 (amended): symbol-scoped filtering never raises (it is a
total function); with a non-empty symbol and zero matching rows it
returns the empty list.  Callers that wrap it as
`filter(records, s) or records` (fund_bond, hk_us_market, derivatives)
therefore fall back to the original record set unchanged — for those
callers zero-match filtering is a no-op — but `margin_lhb` applies the
filter bare and ends up with an empty item list. -/
theorem filter_no_match_fallback (records : List Rec) (symbol : String) (n : Int)
    (h : ∀ row ∈ records, rowMatchesSymbol row symbol = false) :
    (symbol ≠ "" → filter_records_by_symbol records symbol = []) ∧
    filterWithFallback records symbol = records ∧
    (symbol ≠ "" → marginItemsPost records symbol n = []) := by
  have hfil : symbol ≠ "" → filter_records_by_symbol records symbol = [] := by
    intro hs
    unfold filter_records_by_symbol
    rw [if_neg hs]
    exact List.filter_eq_nil_iff.mpr (fun row hr => by simp [h row hr])
  refine ⟨hfil, ?_, ?_⟩
  · unfold filterWithFallback
    by_cases hs : symbol = ""
    · unfold filter_records_by_symbol
      rw [if_pos hs]
      unfold pyOrList
      split <;> simp_all
    · rw [hfil hs]
      rfl
  · intro hs
    unfold marginItemsPost
    rw [hfil hs]
    unfold pyTake
    split <;> simp

/-- Witness for the amended C4 on a record set with none of the known
code-like field names. -/
theorem filter_no_match_fallback_witness :
    filterWithFallback [[("foo", "bar")]] "600519" = [[("foo", "bar")]] ∧
    marginItemsPost [[("foo", "bar")]] "600519" 7 = [] :=
  ⟨(filter_no_match_fallback [[("foo", "bar")]] "600519" 7 (by decide)).2.1,
    (filter_no_match_fallback [[("foo", "bar")]] "600519" 7 (by decide)).2.2 (by decide)⟩

/-! # Sorting lemmas -/

theorem sInsert_length (le : α → α → Bool) (a : α) (l : List α) :
    (sInsert le a l).length = l.length + 1 := by
  induction l with
  | nil => rfl
  | cons b t ih =>
    unfold sInsert
    split
    · simp
    · simp only [List.length_cons, ih]

theorem sSort_length (le : α → α → Bool) (l : List α) : (sSort le l).length = l.length := by
  induction l with
  | nil => rfl
  | cons b t ih =>
    unfold sSort
    rw [sInsert_length, ih]
    rfl

theorem sInsert_mem (le : α → α → Bool) (a c : α) (l : List α) :
    c ∈ sInsert le a l ↔ c = a ∨ c ∈ l := by
  induction l with
  | nil => simp [sInsert]
  | cons b t ih =>
    unfold sInsert
    split
    · simp [List.mem_cons]
    · simp only [List.mem_cons, ih]
      tauto

theorem sSort_mem (le : α → α → Bool) (c : α) (l : List α) : c ∈ sSort le l ↔ c ∈ l := by
  induction l with
  | nil => simp [sSort]
  | cons b t ih =>
    unfold sSort
    rw [sInsert_mem, ih, List.mem_cons]

theorem sInsert_pairwise (le : α → α → Bool)
    (htot : ∀ x y, le x y = false → le y x = true)
    (htrans : ∀ x y z, le x y = true → le y z = true → le x z = true)
    (a : α) (l : List α) (hl : l.Pairwise (fun x y => le x y = true)) :
    (sInsert le a l).Pairwise (fun x y => le x y = true) := by
  induction l with
  | nil => simp [sInsert]
  | cons b t ih =>
    rw [List.pairwise_cons] at hl
    obtain ⟨hb, ht⟩ := hl
    unfold sInsert
    split
    case isTrue hab =>
      rw [List.pairwise_cons]
      refine ⟨?_, ?_⟩
      · intro x hx
        rcases List.mem_cons.mp hx with rfl | hxt
        · exact hab
        · exact htrans a b x hab (hb x hxt)
      · rw [List.pairwise_cons]
        exact ⟨hb, ht⟩
    case isFalse hab =>
      rw [List.pairwise_cons]
      refine ⟨?_, ih ht⟩
      intro x hx
      rcases (sInsert_mem le a x t).mp hx with heq | hxt
      · subst heq
        exact htot x b (Bool.eq_false_iff.mpr hab)
      · exact hb x hxt

theorem sSort_pairwise (le : α → α → Bool)
    (htot : ∀ x y, le x y = false → le y x = true)
    (htrans : ∀ x y z, le x y = true → le y z = true → le x z = true)
    (l : List α) : (sSort le l).Pairwise (fun x y => le x y = true) := by
  induction l with
  | nil => simp [sSort]
  | cons b t ih =>
    unfold sSort
    exact sInsert_pairwise le htot htrans b (sSort le t) ih

theorem pyTake_sublist (n : Int) (l : List α) : (pyTake n l).Sublist l := by
  unfold pyTake
  split
  · exact List.take_sublist _ _
  · exact List.take_sublist _ _

theorem dleq_iff (a b : Dec10) : dleq a b = true ↔ dval a ≤ dval b := by
  unfold dleq dval
  rw [decide_eq_true_eq,
    div_le_div_iff₀ (by positivity) (by positivity)]
  constructor <;> intro h <;> exact_mod_cast h

theorem dleq_total (a b : Dec10) : dleq a b = false → dleq b a = true := by
  intro h
  rcases le_total (dval a) (dval b) with hle | hle
  · rw [(dleq_iff a b).mpr hle] at h
    exact absurd h (by simp)
  · exact (dleq_iff b a).mpr hle

theorem dleq_trans (a b c : Dec10) :
    dleq a b = true → dleq b c = true → dleq a c = true := by
  intro h1 h2
  exact (dleq_iff a c).mpr (le_trans ((dleq_iff a b).mp h1) ((dleq_iff b c).mp h2))

/-! # Claim C6: sector ranking order -/

/-- Claim C6 counterexample: the top-gainers list is NOT sorted descending
by percent-change.  `_safe_float_local(x) or -9999` treats the parsed
value `0.0` as falsy, so a row with percent `0` gets the `-9999` sentinel
and sorts below a row with percent `-1`: the ranking keeps the `-1` row
first although its percent is strictly smaller. -/
theorem sector_rank_zero_percent_misordered :
    (sectorRank (.table [rowNegFix, rowZeroFix]) 2).1 = [rowNegFix, rowZeroFix] ∧
    safe_float_local (pctChain rowNegFix) = some ⟨-1, 0⟩ ∧
    safe_float_local (pctChain rowZeroFix) = some ⟨0, 0⟩ ∧
    dleq ⟨0, 0⟩ ⟨-1, 0⟩ = false := by
  refine ⟨by decide, by decide, by decide, by decide⟩

/-- Claim C6 (amended): `sector_analysis` sorts the full (un-truncated)
normalized record set by the sentinel keys
`_safe_float_local(pct) or ∓9999` — descending for top-gainers, ascending
for top-losers — and then cuts each list to `top_n`.  A record whose
percent value is unparseable, or parses to `0` (Python `0.0` is falsy), or
lies beyond the `∓9999` sentinels, is keyed by the sentinel instead of its
percent, so such records sort last only relative to in-range records;
ordering by the keys, the truncation bound, and membership in the original
set all hold. -/
theorem sector_rank_sorted (rows : List Rec) (n : Int) :
    (0 ≤ n →
      (sectorRank (.table rows) n).1.length = min n.toNat rows.length ∧
      (sectorRank (.table rows) n).2.length = min n.toNat rows.length) ∧
    (sectorRank (.table rows) n).1.Pairwise
      (fun x y => dval (gainKey y) ≤ dval (gainKey x)) ∧
    (sectorRank (.table rows) n).2.Pairwise
      (fun x y => dval (dropKey x) ≤ dval (dropKey y)) ∧
    (∀ r ∈ (sectorRank (.table rows) n).1, r ∈ rows) ∧
    (∀ r ∈ (sectorRank (.table rows) n).2, r ∈ rows) := by
  have h0 : to_records (.table rows) 0 = .recs rows := by
    show (if (0 : Int) ≠ 0 ∧ (0 : Int) > 0 then NormOut.recs (rows.take (Int.toNat 0))
      else NormOut.recs rows) = NormOut.recs rows
    rw [if_neg]
    intro hc
    exact hc.1 rfl
  have hsec : sectorRank (.table rows) n =
      (pyTake n (sSort (fun a b => dleq (gainKey b) (gainKey a)) rows),
        pyTake n (sSort (fun a b => dleq (dropKey a) (dropKey b))
          (sSort (fun a b => dleq (gainKey b) (gainKey a)) rows))) := by
    unfold sectorRank
    rw [h0]
  rw [hsec]
  have hgTot : ∀ x y : Rec, dleq (gainKey y) (gainKey x) = false →
      dleq (gainKey x) (gainKey y) = true := fun x y h => dleq_total _ _ h
  have hgTrans : ∀ x y z : Rec, dleq (gainKey y) (gainKey x) = true →
      dleq (gainKey z) (gainKey y) = true → dleq (gainKey z) (gainKey x) = true :=
    fun x y z h1 h2 => dleq_trans _ _ _ h2 h1
  have hdTot : ∀ x y : Rec, dleq (dropKey x) (dropKey y) = false →
      dleq (dropKey y) (dropKey x) = true := fun x y h => dleq_total _ _ h
  have hdTrans : ∀ x y z : Rec, dleq (dropKey x) (dropKey y) = true →
      dleq (dropKey y) (dropKey z) = true → dleq (dropKey x) (dropKey z) = true :=
    fun x y z h1 h2 => dleq_trans _ _ _ h1 h2
  refine ⟨?_, ?_, ?_, ?_, ?_⟩
  · intro hn
    unfold pyTake
    rw [if_pos hn, if_pos hn]
    simp [List.length_take, sSort_length]
  · have hp := sSort_pairwise (fun a b => dleq (gainKey b) (gainKey a)) hgTot hgTrans rows
    exact ((hp.sublist (pyTake_sublist n _)).imp (fun h => (dleq_iff _ _).mp h))
  · have hp := sSort_pairwise (fun a b => dleq (dropKey a) (dropKey b)) hdTot hdTrans
      (sSort (fun a b => dleq (gainKey b) (gainKey a)) rows)
    exact ((hp.sublist (pyTake_sublist n _)).imp (fun h => (dleq_iff _ _).mp h))
  · intro r hr
    exact (sSort_mem _ r rows).mp ((pyTake_sublist n _).mem hr)
  · intro r hr
    exact (sSort_mem _ r rows).mp
      ((sSort_mem _ r _).mp ((pyTake_sublist n _).mem hr))

/-- Witness for the amended C6 at a two-row table with `top_n = 1`. -/
theorem sector_rank_sorted_witness :
    (sectorRank (.table [rowNegFix, rowZeroFix]) 1).1.length
      = min (Int.toNat 1) [rowNegFix, rowZeroFix].length ∧
    ∀ r ∈ (sectorRank (.table [rowNegFix, rowZeroFix]) 1).1, r ∈ [rowNegFix, rowZeroFix] :=
  ⟨((sector_rank_sorted [rowNegFix, rowZeroFix] 1).1 (by decide)).1,
    (sector_rank_sorted [rowNegFix, rowZeroFix] 1).2.2.2.1⟩

/-! # Resolver lemmas -/

theorem flatAttempts_cons_none (cap : Capability) (fnName : String)
    (kwargsList : List ArgSet) (rest : List (String × List ArgSet))
    (h : cap fnName = none) :
    flatAttempts cap ((fnName, kwargsList) :: rest) = flatAttempts cap rest := by
  conv_lhs => unfold flatAttempts
  rw [h]

theorem flatAttempts_cons_some (cap : Capability) (fnName : String)
    (kwargsList : List ArgSet) (rest : List (String × List ArgSet))
    (f : ArgSet → Except String Payload) (h : cap fnName = some f) :
    flatAttempts cap ((fnName, kwargsList) :: rest) =
      (if kwargsList.isEmpty then [emptyArgs] else kwargsList).map (fun kw => (fnName, kw))
        ++ flatAttempts cap rest := by
  conv_lhs => unfold flatAttempts
  rw [h]

theorem runCandidates_cons_none (cap : Capability) (fnName : String)
    (kwargsList : List ArgSet) (rest : List (String × List ArgSet))
    (h : cap fnName = none) :
    runCandidates cap ((fnName, kwargsList) :: rest) = runCandidates cap rest := by
  conv_lhs => unfold runCandidates
  rw [h]

theorem runCandidates_cons_some (cap : Capability) (fnName : String)
    (kwargsList : List ArgSet) (rest : List (String × List ArgSet))
    (f : ArgSet → Except String Payload) (h : cap fnName = some f) :
    runCandidates cap ((fnName, kwargsList) :: rest) =
      match tryArgsPool fnName f (if kwargsList.isEmpty then [emptyArgs] else kwargsList) with
      | (some r, _, log) => (some fnName, some r, [], log)
      | (none, errs, log) =>
        let (a, p, errs2, log2) := runCandidates cap rest
        (a, p, errs ++ errs2, log ++ log2) := by
  conv_lhs => unfold runCandidates
  rw [h]

theorem attemptOutcome_eval (cap : Capability) (fnName : String) (kw : ArgSet)
    (f : ArgSet → Except String Payload) (h : cap fnName = some f) :
    attemptOutcome cap (fnName, kw) = f kw := by
  unfold attemptOutcome
  rw [h]

theorem tryArgsPool_allFail (fnName : String) (f : ArgSet → Except String Payload) :
    (l : List ArgSet) → (∀ kw ∈ l, isErr (f kw) = true) →
    tryArgsPool fnName f l =
      (none, l.map (fun kw => fnName ++ "(" ++ kw ++ "): " ++ errMsgOf (f kw)),
        l.map (fun kw => (fnName, kw)))
  | [], _ => rfl
  | kw :: rest, h => by
    have hkw := h kw (by simp)
    unfold tryArgsPool
    cases hf : f kw with
    | ok r =>
      rw [hf] at hkw
      exact absurd hkw (by simp [isErr])
    | error e =>
      rw [tryArgsPool_allFail fnName f rest (fun x hx => h x (by simp [hx]))]
      simp [errMsgOf, hf]

theorem tryArgsPool_success (fnName : String) (f : ArgSet → Except String Payload) (r : Payload) :
    (pre : List ArgSet) → (post : List ArgSet) → (kw : ArgSet) →
    (∀ x ∈ pre, isErr (f x) = true) → f kw = .ok r →
    ∃ errs, tryArgsPool fnName f (pre ++ kw :: post) =
      (some r, errs, pre.map (fun x => (fnName, x)) ++ [(fnName, kw)])
  | [], post, kw, _, hk => by
    refine ⟨[], ?_⟩
    rw [List.nil_append]
    unfold tryArgsPool
    rw [hk]
    simp
  | x :: pre', post, kw, h, hk => by
    have hx := h x (by simp)
    rw [List.cons_append]
    unfold tryArgsPool
    cases hf : f x with
    | ok rx =>
      rw [hf] at hx
      exact absurd hx (by simp [isErr])
    | error e =>
      obtain ⟨errs, ih⟩ :=
        tryArgsPool_success fnName f r pre' post kw (fun y hy => h y (by simp [hy])) hk
      refine ⟨(fnName ++ "(" ++ x ++ "): " ++ e) :: errs, ?_⟩
      rw [ih]
      simp

theorem mapFmt_pool (cap : Capability) (fnName : String)
    (f : ArgSet → Except String Payload) (pool : List ArgSet) (h : cap fnName = some f) :
    (pool.map (fun kw => (fnName, kw))).map (fmtAttempt cap)
      = pool.map (fun kw => fnName ++ "(" ++ kw ++ "): " ++ errMsgOf (f kw)) := by
  rw [List.map_map]
  apply List.map_congr_left
  intro kw _
  show fmtAttempt cap (fnName, kw) = fnName ++ "(" ++ kw ++ "): " ++ errMsgOf (f kw)
  unfold fmtAttempt
  rw [attemptOutcome_eval cap fnName kw f h]

theorem runCandidates_allFail (cap : Capability) :
    (cands : List (String × List ArgSet)) →
    (∀ a ∈ flatAttempts cap cands, isErr (attemptOutcome cap a) = true) →
    runCandidates cap cands =
      (none, none, (flatAttempts cap cands).map (fmtAttempt cap), flatAttempts cap cands)
  | [], _ => rfl
  | (fnName, kwargsList) :: rest, h => by
    cases hcap : cap fnName with
    | none =>
      rw [flatAttempts_cons_none _ _ _ _ hcap] at h ⊢
      rw [runCandidates_cons_none _ _ _ _ hcap]
      exact runCandidates_allFail cap rest h
    | some f =>
      rw [flatAttempts_cons_some _ _ _ _ f hcap] at h ⊢
      rw [runCandidates_cons_some _ _ _ _ f hcap]
      have hpoolFail :
          ∀ kw ∈ (if kwargsList.isEmpty then [emptyArgs] else kwargsList), isErr (f kw) = true := by
        intro kw hkw
        have hmem := h (fnName, kw)
          (List.mem_append.mpr (Or.inl (List.mem_map_of_mem (fun kw => (fnName, kw)) hkw)))
        rw [attemptOutcome_eval cap fnName kw f hcap] at hmem
        exact hmem
      rw [tryArgsPool_allFail fnName f _ hpoolFail,
        runCandidates_allFail cap rest (fun a ha => h a (List.mem_append.mpr (Or.inr ha)))]
      rw [List.map_append, mapFmt_pool cap fnName f _ hcap]

theorem runCandidates_success (cap : Capability) :
    (cands : List (String × List ArgSet)) → (pre : List (String × ArgSet)) →
    (a : String × ArgSet) → (post : List (String × ArgSet)) → (r : Payload) →
    flatAttempts cap cands = pre ++ a :: post →
    (∀ x ∈ pre, isErr (attemptOutcome cap x) = true) →
    attemptOutcome cap a = .ok r →
    ∃ errs, runCandidates cap cands = (some a.1, some r, errs, pre ++ [a])
  | [], pre, a, post, r, hsplit, _, _ => by
    exact absurd hsplit (by simp [flatAttempts])
  | (fnName, kwargsList) :: rest, pre, a, post, r, hsplit, hpre, hk => by
    cases hcap : cap fnName with
    | none =>
      rw [flatAttempts_cons_none _ _ _ _ hcap] at hsplit
      rw [runCandidates_cons_none _ _ _ _ hcap]
      exact runCandidates_success cap rest pre a post r hsplit hpre hk
    | some f =>
      rw [flatAttempts_cons_some _ _ _ _ f hcap] at hsplit
      rw [runCandidates_cons_some _ _ _ _ f hcap]
      have caseRest : ∀ mid : List (String × ArgSet),
          pre = (if kwargsList.isEmpty then [emptyArgs] else kwargsList).map
              (fun kw => (fnName, kw)) ++ mid →
          flatAttempts cap rest = mid ++ a :: post →
          ∃ errs,
            (match tryArgsPool fnName f
                (if kwargsList.isEmpty then [emptyArgs] else kwargsList) with
              | (some r, _, log) => (some fnName, some r, [], log)
              | (none, errs, log) =>
                let (a, p, errs2, log2) := runCandidates cap rest
                (a, p, errs ++ errs2, log ++ log2))
              = (some a.1, some r, errs, pre ++ [a]) := by
        intro mid hpreEq hrestEq
        have hpoolFail :
            ∀ kw ∈ (if kwargsList.isEmpty then [emptyArgs] else kwargsList),
              isErr (f kw) = true := by
          intro kw hkw
          have hmem := hpre (fnName, kw)
            (hpreEq ▸ List.mem_append.mpr
              (Or.inl (List.mem_map_of_mem (fun kw => (fnName, kw)) hkw)))
          rw [attemptOutcome_eval cap fnName kw f hcap] at hmem
          exact hmem
        have hmidFail : ∀ x ∈ mid, isErr (attemptOutcome cap x) = true := by
          intro x hx
          exact hpre x (hpreEq ▸ List.mem_append.mpr (Or.inr hx))
        obtain ⟨errs2, ih2⟩ := runCandidates_success cap rest mid a post r hrestEq hmidFail hk
        rw [tryArgsPool_allFail fnName f _ hpoolFail, ih2]
        refine ⟨(if kwargsList.isEmpty then [emptyArgs] else kwargsList).map
          (fun kw => fnName ++ "(" ++ kw ++ "): " ++ errMsgOf (f kw)) ++ errs2, ?_⟩
        rw [hpreEq]
        simp
      rcases List.append_eq_append_iff.mp hsplit with ⟨mid, hpreEq, hrestEq⟩ | ⟨mid, hpmEq, hpostEq⟩
      · exact caseRest mid hpreEq hrestEq
      · cases mid with
        | nil =>
          rw [List.append_nil] at hpmEq
          rw [List.nil_append] at hpostEq
          refine caseRest [] ?_ ?_
          · rw [List.append_nil]
            exact hpmEq.symm
          · rw [List.nil_append]
            exact hpostEq.symm
        | cons m mid' =>
          rw [List.cons_append] at hpostEq
          have ha : a = m := (List.cons_eq_cons.mp hpostEq).1
          obtain ⟨l₁, l₂, hpoolSplit, hmap₁, hmap₂⟩ := List.map_eq_append_iff.mp hpmEq
          obtain ⟨kw, l₂', hl₂, hkwEq, hmap₂'⟩ := List.map_eq_cons_iff.mp hmap₂
          have hkwEq' : (fnName, kw) = m := hkwEq
          have hkOk : f kw = .ok r := by
            rw [← attemptOutcome_eval cap fnName kw f hcap, hkwEq', ← ha]
            exact hk
          have hpreFail : ∀ x ∈ l₁, isErr (f x) = true := by
            intro x hx
            have hmem := hpre (fnName, x) (by
              rw [← hmap₁]
              exact List.mem_map_of_mem (fun kw => (fnName, kw)) hx)
            rw [attemptOutcome_eval cap fnName x f hcap] at hmem
            exact hmem
          obtain ⟨errs, htp⟩ := tryArgsPool_success fnName f r l₁ l₂' kw hpreFail hkOk
          rw [hpoolSplit, hl₂, htp]
          refine ⟨[], ?_⟩
          rw [hmap₁, ha, ← hkwEq']

/-! # Claim C1: first-success resolution -/

/-- Claim C1: if the attempt sequence denoted by a candidate list splits as
`pre ++ a :: post` on the capability, every attempt in `pre` fails and
attempt `a` succeeds with payload `r`, then `_call_api_candidates` returns
exactly `(a`'s operation name, `r`, `"")`, and the invocation log is
`pre ++ [a]` — no operation/argument-set pair after `a` is invoked. -/
theorem resolver_first_success (cap : Capability) (cands : List (String × List ArgSet))
    (pre : List (String × ArgSet)) (a : String × ArgSet) (post : List (String × ArgSet))
    (r : Payload)
    (hsplit : flatAttempts cap cands = pre ++ a :: post)
    (hpre : ∀ x ∈ pre, isErr (attemptOutcome cap x) = true)
    (hk : attemptOutcome cap a = .ok r) :
    call_api_candidates cap cands = (some a.1, some r, "") ∧
    resolutionLog cap cands = pre ++ [a] := by
  obtain ⟨errs, hrun⟩ := runCandidates_success cap cands pre a post r hsplit hpre hk
  unfold call_api_candidates resolutionLog
  rw [hrun]
  exact ⟨rfl, rfl⟩

/-- Witness for C1: on a capability whose operation `"f"` fails for kwargs
`"a"` and succeeds for kwargs `"b"` (operation `"g"` does not exist), the
resolver returns `(some "f", some "R", "")` after invoking exactly the two
attempts up to the success. -/
theorem resolver_first_success_witness :
    call_api_candidates capFix [("g", ["x"]), ("f", ["a", "b"])] = (some "f", some "R", "") ∧
    resolutionLog capFix [("g", ["x"]), ("f", ["a", "b"])] = [("f", "a"), ("f", "b")] :=
  resolver_first_success capFix [("g", ["x"]), ("f", ["a", "b"])]
    [("f", "a")] ("f", "b") [] "R" (by decide) (by decide) rfl

/-! # Claim C2: total-failure resolution -/

/-- Claim C2: if every attempt in the attempt sequence fails, the resolver
returns `(None, None, trace)` where the trace joins, with `"; "`, exactly
one `"{operation}({args}): {error}"` entry per attempted pair in attempt
order; with no attempts at all the error is `"no callable api found"`.
The invocation log is the full attempt sequence. -/
theorem resolver_total_failure (cap : Capability) (cands : List (String × List ArgSet))
    (h : ∀ x ∈ flatAttempts cap cands, isErr (attemptOutcome cap x) = true) :
    call_api_candidates cap cands =
      (none, none,
        if flatAttempts cap cands = [] then "no callable api found"
        else String.intercalate "; " ((flatAttempts cap cands).map (fmtAttempt cap))) ∧
    resolutionLog cap cands = flatAttempts cap cands := by
  have hrun := runCandidates_allFail cap cands h
  unfold call_api_candidates resolutionLog
  rw [hrun]
  refine ⟨?_, rfl⟩
  by_cases hnil : flatAttempts cap cands = []
  · simp [hnil]
  · rw [if_neg hnil]
    have hne : ((flatAttempts cap cands).map (fmtAttempt cap)).isEmpty = false := by
      simp [List.isEmpty_iff, hnil]
    simp [hne]

/-- Witness for C2: a capability whose only existing operation `"f"`
always fails yields the joined two-entry trace, and the log covers both
attempted pairs. -/
theorem resolver_total_failure_witness :
    call_api_candidates capBadFix [("f", ["a", "b"]), ("zz", ["c"])] =
      (none, none,
        if flatAttempts capBadFix [("f", ["a", "b"]), ("zz", ["c"])] = []
        then "no callable api found"
        else String.intercalate "; "
          ((flatAttempts capBadFix [("f", ["a", "b"]), ("zz", ["c"])]).map
            (fmtAttempt capBadFix))) ∧
    resolutionLog capBadFix [("f", ["a", "b"]), ("zz", ["c"])] =
      flatAttempts capBadFix [("f", ["a", "b"]), ("zz", ["c"])] :=
  resolver_total_failure capBadFix [("f", ["a", "b"]), ("zz", ["c"])] (by decide)

/-! # Overview lemmas -/

theorem stock_overview_eq (env : OverviewEnv) (symbol : String)
    (h : clean_symbol symbol ≠ "") :
    stock_overview env symbol = .success (clean_symbol symbol)
      (if env.stockIntraday.ok then
        ⟨true, env.stockIntraday.api, none,
          some (env.stockIntraday.data.items.headD []), none, none, none, none, none⟩
      else
        ⟨false, env.stockIntraday.api,
          some (env.stockIntraday.error.getD "unknown error"),
          none, none, none, none, none, none⟩)
      (if env.moneyFlow.ok then
        ⟨true, env.moneyFlow.api, none, some (env.moneyFlow.data.items.headD []),
          some env.moneyFlow.data.items, none, none, none, none⟩
      else
        ⟨false, env.moneyFlow.api, some (env.moneyFlow.error.getD "unknown error"),
          none, none, none, none, none, none⟩)
      (if env.fundamentalRes.ok then
        ⟨true, env.fundamentalRes.api, none,
          some ((env.fundamentalRes.data.latest).getD []),
          some env.fundamentalRes.data.items, none, none, none, none⟩
      else
        ⟨false, env.fundamentalRes.api,
          some (env.fundamentalRes.error.getD "unknown error"),
          none, none, none, none, none, none⟩)
      ⟨true, none,
        (if (limitScan env (clean_symbol symbol) symbol).2.2.2.isEmpty then none
         else some (String.intercalate "; "
           ((limitScan env (clean_symbol symbol) symbol).2.2.2.take 3))),
        none, none, some 10, (limitScan env (clean_symbol symbol) symbol).2.2.1,
        some (limitScan env (clean_symbol symbol) symbol).1,
        some (limitScan env (clean_symbol symbol) symbol).2.1⟩
      (if env.researchReport.ok then
        ⟨true, env.researchReport.api, none, none,
          some (env.researchReport.data.items.take 3), none, none, none, none⟩
      else
        ⟨false, env.researchReport.api,
          some (env.researchReport.error.getD "unknown error"),
          none, none, none, none, none, none⟩) := by
  rcases hscan : limitScan env (clean_symbol symbol) symbol with ⟨up, down, lastDate, errs⟩
  simp only [stock_overview]
  rw [if_neg h, hscan]
  simp [Bool.or_true]

/-! # Claim C9: the limit-stats section is unconditionally ok -/

/-- Claim C9: for every non-empty cleaned symbol and every environment of
sub-call results, `stock_overview` assigns the `limit_stats` section with
`ok: true` unconditionally — per-day pool failures only accumulate into its
error string, of which the first three are joined — so at least one
section always succeeds and the all-five-sections-failed branch returning
an overall failure is unreachable: the aggregate result is always ok. -/
theorem overview_limit_stats_always_ok (env : OverviewEnv) (symbol : String)
    (h : clean_symbol symbol ≠ "") :
    overviewOk (stock_overview env symbol) = true ∧
    (limitStatsOf (stock_overview env symbol)).map (fun sec => sec.ok) = some true ∧
    (limitStatsOf (stock_overview env symbol)).bind (fun sec => sec.error) =
      (if (limitScan env (clean_symbol symbol) symbol).2.2.2.isEmpty then none
       else some (String.intercalate "; "
         ((limitScan env (clean_symbol symbol) symbol).2.2.2.take 3))) := by
  rw [stock_overview_eq env symbol h]
  refine ⟨rfl, rfl, rfl⟩

/-- Witness for C9: in an environment where every sub-call (including all
ten limit-pool days) fails, the overview still succeeds overall and its
limit-stats section is ok with the first three per-day errors joined. -/
theorem overview_limit_stats_always_ok_witness :
    overviewOk (stock_overview envAllBadFix "600519") = true ∧
    (limitStatsOf (stock_overview envAllBadFix "600519")).bind (fun sec => sec.error) =
      (if (limitScan envAllBadFix (clean_symbol "600519") "600519").2.2.2.isEmpty then none
       else some (String.intercalate "; "
         ((limitScan envAllBadFix (clean_symbol "600519") "600519").2.2.2.take 3))) :=
  ⟨(overview_limit_stats_always_ok envAllBadFix "600519" (by decide)).1,
    (overview_limit_stats_always_ok envAllBadFix "600519" (by decide)).2.2⟩

/-! # Claim C3: section isolation and aggregation in the overview -/

/-- Claim C3: the five sections of `stock_overview` are isolated: each
section is a function of its own sub-call result alone (changing the other
sub-calls does not change it), and a failing sub-call is recorded as an
`ok: false` section carrying exactly that sub-call's error while the other
sections are still computed.  The overall result is ok exactly when some
section is ok; and if all five sections were failed, the result would be a
single failure — a branch that is in fact unreachable because the
limit-stats section is unconditionally ok (claim C9). -/
theorem overview_section_isolation (env env2 : OverviewEnv) (symbol : String)
    (h : clean_symbol symbol ≠ "") :
    (env2.stockIntraday = env.stockIntraday →
      realtimeOf (stock_overview env2 symbol) = realtimeOf (stock_overview env symbol)) ∧
    (env2.moneyFlow = env.moneyFlow →
      moneyFlowOf (stock_overview env2 symbol) = moneyFlowOf (stock_overview env symbol)) ∧
    (env2.fundamentalRes = env.fundamentalRes →
      fundamentalOf (stock_overview env2 symbol) = fundamentalOf (stock_overview env symbol)) ∧
    (env2.researchReport = env.researchReport →
      researchRepOf (stock_overview env2 symbol) = researchRepOf (stock_overview env symbol)) ∧
    (env2.limitPool = env.limitPool → env2.dateOf = env.dateOf →
      limitStatsOf (stock_overview env2 symbol) = limitStatsOf (stock_overview env symbol)) ∧
    (env.stockIntraday.ok = false →
      realtimeOf (stock_overview env symbol) =
        some ⟨false, env.stockIntraday.api,
          some (env.stockIntraday.error.getD "unknown error"),
          none, none, none, none, none, none⟩) ∧
    (env.moneyFlow.ok = false →
      moneyFlowOf (stock_overview env symbol) =
        some ⟨false, env.moneyFlow.api, some (env.moneyFlow.error.getD "unknown error"),
          none, none, none, none, none, none⟩) ∧
    (env.fundamentalRes.ok = false →
      fundamentalOf (stock_overview env symbol) =
        some ⟨false, env.fundamentalRes.api,
          some (env.fundamentalRes.error.getD "unknown error"),
          none, none, none, none, none, none⟩) ∧
    (env.researchReport.ok = false →
      researchRepOf (stock_overview env symbol) =
        some ⟨false, env.researchReport.api,
          some (env.researchReport.error.getD "unknown error"),
          none, none, none, none, none, none⟩) ∧
    (overviewOk (stock_overview env symbol) = true ↔
      ∃ sec ∈ overviewSections (stock_overview env symbol), sec.ok = true) ∧
    ((∀ sec ∈ overviewSections (stock_overview env symbol), sec.ok = false) →
      ∃ e, stock_overview env symbol = .failure e) := by
  have hscanEq : env2.limitPool = env.limitPool → env2.dateOf = env.dateOf →
      limitScan env2 (clean_symbol symbol) symbol
        = limitScan env (clean_symbol symbol) symbol := by
    intro hp hd
    have hstep : limitScanStep env2 (clean_symbol symbol) symbol
        = limitScanStep env (clean_symbol symbol) symbol := by
      funext acc offset
      unfold limitScanStep
      rw [hp, hd]
    unfold limitScan
    rw [hstep]
  rw [stock_overview_eq env symbol h, stock_overview_eq env2 symbol h]
  refine ⟨?_, ?_, ?_, ?_, ?_, ?_, ?_, ?_, ?_, ?_, ?_⟩
  · intro he
    unfold realtimeOf
    rw [he]
  · intro he
    unfold moneyFlowOf
    rw [he]
  · intro he
    unfold fundamentalOf
    rw [he]
  · intro he
    unfold researchRepOf
    rw [he]
  · intro hp hd
    unfold limitStatsOf
    rw [hscanEq hp hd]
  · intro hfail
    unfold realtimeOf
    rw [if_neg (show ¬ (env.stockIntraday.ok = true) from by simp [hfail])]
  · intro hfail
    unfold moneyFlowOf
    rw [if_neg (show ¬ (env.moneyFlow.ok = true) from by simp [hfail])]
  · intro hfail
    unfold fundamentalOf
    rw [if_neg (show ¬ (env.fundamentalRes.ok = true) from by simp [hfail])]
  · intro hfail
    unfold researchRepOf
    rw [if_neg (show ¬ (env.researchReport.ok = true) from by simp [hfail])]
  · constructor
    · intro _
      refine ⟨⟨true, none,
        (if (limitScan env (clean_symbol symbol) symbol).2.2.2.isEmpty then none
         else some (String.intercalate "; "
           ((limitScan env (clean_symbol symbol) symbol).2.2.2.take 3))),
        none, none, some 10, (limitScan env (clean_symbol symbol) symbol).2.2.1,
        some (limitScan env (clean_symbol symbol) symbol).1,
        some (limitScan env (clean_symbol symbol) symbol).2.1⟩, ?_, rfl⟩
      unfold overviewSections
      simp
    · intro _
      rfl
  · intro hall
    have hmem := hall ⟨true, none,
        (if (limitScan env (clean_symbol symbol) symbol).2.2.2.isEmpty then none
         else some (String.intercalate "; "
           ((limitScan env (clean_symbol symbol) symbol).2.2.2.take 3))),
        none, none, some 10, (limitScan env (clean_symbol symbol) symbol).2.2.1,
        some (limitScan env (clean_symbol symbol) symbol).1,
        some (limitScan env (clean_symbol symbol) symbol).2.1⟩
      (by unfold overviewSections; simp)
    exact absurd hmem (by simp)

/-- Witness for C3: in the mixed environment (money-flow sub-call failing,
the others succeeding) the money-flow section records exactly that
failure, the other sections are still computed, and the aggregate is ok. -/
theorem overview_section_isolation_witness :
    moneyFlowOf (stock_overview envMixFix "600519") =
      some ⟨false, some "apiY", some "boom", none, none, none, none, none, none⟩ ∧
    realtimeOf (stock_overview envMixFix "600519") =
      some ⟨true, some "apiX", none, some [("a", "1")], none, none, none, none, none⟩ ∧
    overviewOk (stock_overview envMixFix "600519") = true :=
  ⟨(overview_section_isolation envMixFix envMixFix "600519"
      (by decide)).2.2.2.2.2.2.1 (by decide),
    by decide, by decide⟩
